import Mathlib

set_option maxRecDepth 100000

/-!
Verification development for the `ai_interviewer` summarization core.

The Python sources `app/summarize.py` and `app/llm.py` are shallowly embedded
here: Python dynamic values become the inductive type `PyVal`, Python dicts
become association lists with Python's insertion semantics, `json.loads`
becomes the executable decoder `jloads` (objects, arrays, strings, booleans,
null and integer literals; float literals are out of the modelled fragment and
are rejected), and code that can raise becomes `Except`-valued.  The principles
file and the network are modelled as explicit inputs, matching the interface
in the specification.
-/

/-- A Python runtime value as it can appear after `json.loads`, plus `None`. -/
inductive PyVal : Type where
  | str : String → PyVal
  | int : Int → PyVal
  | bool : Bool → PyVal
  | pnone : PyVal
  | list : List PyVal → PyVal
  | dict : List (String × PyVal) → PyVal

/-- Python truthiness of a `PyVal` (`bool(v)`). -/
def truthy : PyVal → Bool
  | .str s => !(s == "")
  | .int n => !(n == 0)
  | .bool b => b
  | .pnone => false
  | .list l => !l.isEmpty
  | .dict l => !l.isEmpty

/-- Association-list lookup (`d.get(k)` on a dict with unique keys). -/
def alookup {α : Type} : List (String × α) → String → Option α
  | [], _ => none
  | (k', v) :: rest, k => if k' = k then some v else alookup rest k

/-- Python dict assignment `d[k] = v`: update in place when the key exists
(keeping its position), otherwise append. -/
def aInsert {α : Type} : List (String × α) → String → α → List (String × α)
  | [], k, v => [(k, v)]
  | (k', v') :: rest, k, v =>
    if k' = k then (k, v) :: rest else (k', v') :: aInsert rest k v

/-- `dict(pairs)` for a list of key/value pairs in order (later pairs win,
first occurrence fixes the position). -/
def mkPyDict (pairs : List (String × PyVal)) : List (String × PyVal) :=
  pairs.foldl (fun d kv => aInsert d kv.1 kv.2) []

/-- Python `repr` of a value (containers render as in CPython). -/
def pyRepr : PyVal → String
  | .str s => "'" ++ s ++ "'"
  | .int n => toString n
  | .bool b => if b then "True" else "False"
  | .pnone => "None"
  | .list l => "[" ++ String.intercalate ", " (l.attach.map (fun x => pyRepr x.1)) ++ "]"
  | .dict l =>
    "\x7b" ++
      String.intercalate ", "
        (l.attach.map (fun x => "'" ++ x.1.1 ++ "': " ++ pyRepr x.1.2)) ++ "\x7d"
decreasing_by
  · simp only [PyVal.list.sizeOf_spec]
    have h1 : sizeOf x.1 < sizeOf l := List.sizeOf_lt_of_mem x.2
    omega
  · simp only [PyVal.dict.sizeOf_spec]
    have h1 : sizeOf x.1 < sizeOf l := List.sizeOf_lt_of_mem x.2
    have h2 : sizeOf x.1.2 < sizeOf x.1 := by
      obtain ⟨a, b⟩ := x.1
      simp only [Prod.mk.sizeOf_spec]
      omega
    omega

/-- Python `str` of a value (`f"{v}"` interpolation). -/
def pyStr : PyVal → String
  | .str s => s
  | v => pyRepr v

/-- Length of a string value (0 for non-strings); used only to state bounds. -/
def pyLen : PyVal → Nat
  | .str s => s.length
  | _ => 0

/-! ### A JSON decoder modelling `json.loads` -/

/-- JSON whitespace characters accepted between tokens by `json.loads`. -/
def isJsonWs (c : Char) : Bool := c = ' ' || c = '\t' || c = '\n' || c = '\r'

/-- Skip JSON whitespace. -/
def skipWs (cs : List Char) : List Char := cs.dropWhile isJsonWs

/-- Value of a hexadecimal digit. -/
def hexVal (c : Char) : Option Nat :=
  if c.isDigit then some (c.toNat - 48)
  else if 'a' ≤ c && c ≤ 'f' then some (c.toNat - 87)
  else if 'A' ≤ c && c ≤ 'F' then some (c.toNat - 55)
  else none

/-- Body of a JSON string literal after the opening quote; returns the decoded
string and the remaining characters.  Raw control characters are rejected, as
by `json.loads` in strict mode. -/
def strBody : List Char → List Char → Option (String × List Char)
  | [], _ => none
  | '"' :: rest, acc => some (String.mk acc.reverse, rest)
  | '\\' :: e :: rest, acc =>
    match e with
    | '"' => strBody rest ('"' :: acc)
    | '\\' => strBody rest ('\\' :: acc)
    | '/' => strBody rest ('/' :: acc)
    | 'n' => strBody rest ('\n' :: acc)
    | 't' => strBody rest ('\t' :: acc)
    | 'r' => strBody rest ('\r' :: acc)
    | 'b' => strBody rest ('\x08' :: acc)
    | 'f' => strBody rest ('\x0c' :: acc)
    | 'u' =>
      match rest with
      | h1 :: h2 :: h3 :: h4 :: rest2 =>
        match hexVal h1, hexVal h2, hexVal h3, hexVal h4 with
        | some a, some b, some c, some d =>
          strBody rest2 (Char.ofNat (((a * 16 + b) * 16 + c) * 16 + d) :: acc)
        | _, _, _, _ => none
      | _ => none
    | _ => none
  | c :: rest, acc => if c.toNat < 32 then none else strBody rest (c :: acc)

/-- Numeric value of a digit list. -/
def digitsVal (ds : List Char) : Int :=
  ds.foldl (fun a c => a * 10 + ((c.toNat : Int) - 48)) 0

/-- A JSON integer literal (float literals are outside the modelled fragment). -/
def parseNum (cs : List Char) : Option (PyVal × List Char) :=
  let p := match cs with
    | '-' :: r => (true, r)
    | _ => (false, cs)
  let ds := p.2.takeWhile Char.isDigit
  if ds.isEmpty then none
  else
    let rest := p.2.drop ds.length
    match rest with
    | '.' :: _ => none
    | 'e' :: _ => none
    | 'E' :: _ => none
    | _ => some (.int (if p.1 then - digitsVal ds else digitsVal ds), rest)

mutual

/-- One JSON value; fuel bounds the call depth (each recursive hop consumes at
least one input character, so `length + 1` fuel always suffices). -/
def parseVal : Nat → List Char → Option (PyVal × List Char)
  | 0, _ => none
  | fuel+1, cs =>
    match skipWs cs with
    | [] => none
    | '{' :: rest => parseObjFields fuel (skipWs rest) []
    | '[' :: rest => parseArrItems fuel (skipWs rest) []
    | '"' :: rest => (strBody rest []).map (fun p => (.str p.1, p.2))
    | 't' :: 'r' :: 'u' :: 'e' :: rest => some (.bool true, rest)
    | 'f' :: 'a' :: 'l' :: 's' :: 'e' :: rest => some (.bool false, rest)
    | 'n' :: 'u' :: 'l' :: 'l' :: rest => some (.pnone, rest)
    | c :: rest => if c = '-' || c.isDigit then parseNum (c :: rest) else none

/-- Fields of a JSON object after the opening brace (whitespace skipped);
duplicate keys follow Python `dict` semantics via `mkPyDict`. -/
def parseObjFields : Nat → List Char → List (String × PyVal) →
    Option (PyVal × List Char)
  | 0, _, _ => none
  | fuel+1, cs, acc =>
    match cs with
    | '}' :: rest => some (.dict (mkPyDict acc.reverse), rest)
    | '"' :: rest =>
      match strBody rest [] with
      | none => none
      | some (k, rest2) =>
        match skipWs rest2 with
        | ':' :: rest3 =>
          match parseVal fuel rest3 with
          | none => none
          | some (v, rest4) =>
            match skipWs rest4 with
            | ',' :: rest5 =>
              match skipWs rest5 with
              | '"' :: _ => parseObjFields fuel (skipWs rest5) ((k, v) :: acc)
              | _ => none
            | '}' :: rest5 => some (.dict (mkPyDict ((k, v) :: acc).reverse), rest5)
            | _ => none
        | _ => none
    | _ => none

/-- Items of a JSON array after the opening bracket (whitespace skipped). -/
def parseArrItems : Nat → List Char → List PyVal → Option (PyVal × List Char)
  | 0, _, _ => none
  | fuel+1, cs, acc =>
    match cs with
    | ']' :: rest => some (.list acc.reverse, rest)
    | _ =>
      match parseVal fuel cs with
      | none => none
      | some (v, rest) =>
        match skipWs rest with
        | ',' :: rest2 =>
          match skipWs rest2 with
          | ']' :: _ => none
          | _ => parseArrItems fuel (skipWs rest2) (v :: acc)
        | ']' :: rest2 => some (.list (v :: acc).reverse, rest2)
        | _ => none

end

/-- `json.loads`: decode a complete JSON document, requiring the whole input
(after trailing whitespace) to be consumed; `none` models a raised
`JSONDecodeError`. -/
def jloads (s : String) : Option PyVal :=
  match parseVal (s.length + 1) s.toList with
  | some (v, rest) => if (skipWs rest).isEmpty then some v else none
  | none => none

/-! ### Python string utilities -/

/-- Characters stripped by Python `str.strip()` / matched by the `\s` class. -/
def isPySpace (c : Char) : Bool :=
  c = ' ' || c = '\t' || c = '\n' || c = '\r' || c = '\x0b' || c = '\x0c'

/-- Python `s.strip()`. -/
def pyStrip (s : String) : String :=
  String.mk (((s.toList.dropWhile isPySpace).reverse.dropWhile isPySpace).reverse)

/-- Python `s.rstrip()`. -/
def pyRstrip (s : String) : String :=
  String.mk ((s.toList.reverse.dropWhile isPySpace).reverse)

/-- Python slice `text[a:b]` on character indices. -/
def pySlice (text : String) (a b : Nat) : String :=
  String.mk ((text.toList.drop a).take (b - a))

/-- Character indices at which `c` occurs (`re.finditer` over a one-character
pattern). -/
def charPositions (c : Char) (s : String) : List Nat :=
  (List.range s.length).filter (fun i => s.toList.getD i ' ' == c)

/-- Character indices at which the literal `pat` occurs (overlapping hits
included). -/
def strPositions (pat : String) (s : String) : List Nat :=
  (List.range s.length).filter (fun i =>
    (s.toList.drop i).take pat.length == pat.toList)

/-- Does `pat` occur as a contiguous substring of `s` (Python `pat in s`)? -/
def hasSub (s pat : String) : Bool :=
  (List.range (s.length + 1)).any (fun i =>
    (s.toList.drop i).take pat.length == pat.toList)

/-- Python `str.splitlines` (restricted to the `\n`, `\r\n` and `\r`
terminators; the interview data never contains the exotic ones). -/
def splitlinesAux : Nat → List Char → List (List Char)
  | 0, _ => []
  | _, [] => []
  | fuel+1, cs =>
    let line := cs.takeWhile (fun c => !(c == '\n' || c == '\r'))
    let rest := cs.drop line.length
    match rest with
    | [] => [line]
    | '\r' :: '\n' :: r => line :: splitlinesAux fuel r
    | _ :: r => line :: splitlinesAux fuel r

/-- Python `s.splitlines()`. -/
def splitlinesS (s : String) : List String :=
  (splitlinesAux (s.length + 1) s.toList).map String.mk

/-! ### `app/summarize.py`: `_extract_json_block` and `_safe_json_parse` -/

/-- The candidate text of the first fenced code block, already stripped:
the semantics of `re.search(r"` ``` `(?:json)?\s*([\s\S]*?)\s*` ``` `",
text, re.IGNORECASE)` followed by `.group(1).strip()`.  The match starts at
the first triple-backtick that is followed (after an optional
case-insensitive `json` annotation) by another triple-backtick; the lazy
group together with the final strip yields exactly the stripped text between
those two markers. -/
def fencedCandidate (text : String) : Option String :=
  let fences := strPositions "```" text
  fences.findSome? (fun p =>
    let a0 := p + 3
    let a :=
      if ((text.toList.drop a0).take 4).map Char.toLower == "json".toList
      then a0 + 4 else a0
    match fences.find? (fun f => decide (a ≤ f)) with
    | some f => some (pyStrip (pySlice text a f))
    | none => none)

/-- Python `range(len(closes)-1, i-1, -1)`: the list index positions
`len-1, …, i` in that (descending) order. -/
def revRange (len i : Nat) : List Nat :=
  (List.range len).reverse.filter (fun j => decide (i ≤ j))

/-- The substring `text[op:cl+1]` tried by the brace scan. -/
def braceCandidate (text : String) (op cl : Nat) : String :=
  pySlice text op (cl + 1)

/-- Inner loop of the brace scan in `_extract_json_block`: try the close
positions in the given order, returning the first candidate substring that
decodes. -/
def scanInnerCode (text : String) (op : Nat) : List Nat → Option String
  | [] => none
  | cl :: rest =>
    let s := braceCandidate text op cl
    if (jloads s).isSome then some s else scanInnerCode text op rest

/-- Outer loop of the brace scan: for the `i`-th opening brace (by list
index), try the `j`-th closing braces for `j = len-1, …, i` (list indices,
as in the Python loop bounds). -/
def scanOuterCode (text : String) (opens closes : List Nat) :
    List Nat → Option String
  | [] => none
  | i :: is =>
    match scanInnerCode text (opens.getD i 0)
        ((revRange closes.length i).map (fun j => closes.getD j 0)) with
    | some s => some s
    | none => scanOuterCode text opens closes is

/-- The brace-scanning stage of `_extract_json_block`. -/
def braceScanCode (text : String) : Option String :=
  let opens := charPositions '{' text
  let closes := charPositions '}' text
  scanOuterCode text opens closes (List.range opens.length)

/-- The fall-through after the fenced-block attempt: brace scan, then the
whole stripped text. -/
def braceOrWhole (text : String) : Option String :=
  match braceScanCode text with
  | some s => some s
  | none =>
    if (jloads (pyStrip text)).isSome then some (pyStrip text) else none

/-- `_extract_json_block`: returns the candidate substring whose decode
succeeded (fenced block, then brace scan, then whole stripped text), or
`none`. -/
def extractJsonBlock (text : String) : Option String :=
  if text = "" then none
  else
    match fencedCandidate text with
    | some cand =>
      if (jloads cand).isSome then some cand else braceOrWhole text
    | none => braceOrWhole text

/-- `_safe_json_parse`: decode the whole raw text first, fall back to
`_extract_json_block`, and return the empty dict on total failure. -/
def safeJsonParse (text : String) : PyVal :=
  if text = "" then .dict []
  else
    match jloads text with
    | some v => v
    | none =>
      match extractJsonBlock text with
      | some block =>
        if block = "" then .dict [] else (jloads block).getD (.dict [])
      | none => .dict []

/-! ### `app/summarize.py`: helpers and `_coerce_schema` -/

/-- `_shorten` with its default cap of 220 characters. -/
def shorten (s : String) : String :=
  if s = "" then ""
  else
    let t := pyStrip s
    if t.length ≤ 220 then t
    else pyRstrip (String.mk (t.toList.take 220)) ++ "…"

/-- `_cap_text(s, max_len)`. -/
def capText (maxLen : Nat) (s : String) : String :=
  if s = "" then ""
  else
    let t := pyStrip s
    if t.length ≤ maxLen then t
    else pyRstrip (String.mk (t.toList.take maxLen)) ++ "…"

/-- One line of the principles file against
`re.match(r"\s*(?:[-*]|\d+\.)\s*(.+)", line)`, returning `group(1).strip()`
on a match: optional leading whitespace, a bullet (`-`/`*`) or a digit run
followed by a dot, then at least one further character; the name is the
stripped remainder. -/
def lineMatch (line : String) : Option String :=
  let cs := line.toList.dropWhile isPySpace
  match cs with
  | '-' :: rest =>
    if rest.isEmpty then none else some (pyStrip (String.mk rest))
  | '*' :: rest =>
    if rest.isEmpty then none else some (pyStrip (String.mk rest))
  | c :: _ =>
    if c.isDigit then
      let ds := cs.takeWhile Char.isDigit
      match cs.drop ds.length with
      | '.' :: rest =>
        if rest.isEmpty then none else some (pyStrip (String.mk rest))
      | _ => none
    else none
  | [] => none

/-- The principle names parsed from the principles markdown, in order and not
deduplicated (lines 123–126 of `summarize.py`). -/
def parsePrinciples (principlesMd : String) : List String :=
  if principlesMd = "" then []
  else (splitlinesS principlesMd).filterMap lineMatch

/-- The `pick` closure of `_coerce_schema`: first non-empty answer among the
given keys, else the empty string. -/
def pick (answers : List (String × String)) : List String → String
  | [] => ""
  | k :: rest =>
    match alookup answers k with
    | some v => if v = "" then pick answers rest else v
    | none => pick answers rest

/-- The readiness-flag inference of `_coerce_schema` (lines 84–90). -/
def deriveReadinessFlag (readinessText : String) : String :=
  if readinessText = "" then "unknown"
  else
    let t := readinessText.toLower
    if ["immediate", "ready", "now"].any (fun w => hasSub t w) then "ready_now"
    else if ["week", "month", " from ", "start "].any (fun w => hasSub t w) then
      "date"
    else if ["prep", "support", "refresh", "not ready"].any (fun w => hasSub t w)
    then "needs_prep"
    else "unknown"

/-- The suitability field: the model value when it is exactly one of the three
literals, else the length heuristic over motivation/experience (lines 93–99). -/
def suitabilityOf (rawD : List (String × PyVal)) (answers : List (String × String)) :
    String :=
  let heur :=
    let mot := pick answers ["why_lunartech", "motivation"]
    let ex := pick answers ["experience"]
    if mot.length > 120 || ex.length > 120 then "strong"
    else if mot.length > 40 || ex.length > 40 then "average"
    else "weak"
  match alookup rawD "suitability" with
  | some (.str s) =>
    if s = "strong" || s = "average" || s = "weak" then s else heur
  | _ => heur

/-- `notes.get(key) or _shorten(fallback)`. -/
def noteFor (notesD : List (String × PyVal)) (k : String) (fallback : String) :
    PyVal :=
  match alookup notesD k with
  | some v => if truthy v then v else .str (shorten fallback)
  | none => .str (shorten fallback)

/-- `model_value or default` for a field looked up in the raw dict. -/
def fieldOr (rawD : List (String × PyVal)) (k : String) (dflt : PyVal) : PyVal :=
  match alookup rawD k with
  | some v => if truthy v then v else dflt
  | none => dflt

/-- `.get` on an arbitrary value: only mappings support it; anything else
raises `AttributeError` (the failure `_coerce_schema` can actually hit). -/
def asDictE (v : PyVal) : Except String (List (String × PyVal)) :=
  match v with
  | .dict l => .ok l
  | _ => .error "AttributeError"

/-- `notes = raw.get("notes") or \x7b\x7d` followed by the five unconditional
`notes.get` uses of lines 110–114: a missing or falsy value yields the empty
dict, a truthy dict yields itself, and a truthy non-dict raises at the first
`.get`. -/
def orEmptyDictE (o : Option PyVal) : Except String (List (String × PyVal)) :=
  match o with
  | none => .ok []
  | some v => if truthy v then asDictE v else .ok []

/-- `raw.get(k) or \x7b\x7d` as a plain value, raising nothing by itself
(line 127): a missing or falsy value is replaced by the empty dict, any
truthy value is kept as is. -/
def pyOrEmpty (o : Option PyVal) : PyVal :=
  match o with
  | none => .dict []
  | some v => if truthy v then v else .dict []

/-- `pa.get(name, "")`: defaulting lookup on a mapping; any other receiver
raises `AttributeError`.  Inside the comprehension of line 128 this runs once
per parsed principle name, so a bad receiver raises only when at least one
name parses. -/
def pyGetD (pa : PyVal) (name : String) : Except String PyVal :=
  match pa with
  | .dict l => .ok ((alookup l name).getD (.str ""))
  | _ => .error "AttributeError"

/-- The dict `orEmptyDictE` produces in every non-raising case. -/
def effD (o : Option PyVal) : List (String × PyVal) :=
  match o with
  | none => []
  | some v =>
    if truthy v then
      match v with
      | .dict l => l
      | _ => []
    else []

/-- The inputs on which `orEmptyDictE` does not raise. -/
def dictableO : Option PyVal → Prop
  | none => True
  | some v => truthy v = false ∨ ∃ l, v = PyVal.dict l

/-- The five `raw_answers` entries of the structured record. -/
structure RawAnswers where
  background : String
  why_lunartech : String
  experience : String
  future_goals : String
  readiness : String

/-- The five `notes` entries of the structured record (model-supplied notes
are kept verbatim, so the values are arbitrary `PyVal`s). -/
structure NotesRec where
  background : PyVal
  why_lunartech : PyVal
  experience : PyVal
  future_goals : PyVal
  readiness : PyVal

/-- The structured summary record built by `_coerce_schema`. -/
structure Structured where
  raw_answers : RawAnswers
  notes : NotesRec
  evaluation : PyVal
  suitability : String
  readiness_flag : PyVal
  principles_alignment : List (String × PyVal)

/-- The `raw_answers` block of `_coerce_schema` (lines 102–108). -/
def pickRA (answers : List (String × String)) : RawAnswers where
  background := pick answers ["background", "full_name_background"]
  why_lunartech := pick answers ["why_lunartech", "motivation"]
  experience := pick answers ["experience"]
  future_goals := pick answers ["future_goals", "goals"]
  readiness := pick answers ["readiness"]

/-- `_coerce_schema(raw, answers)` with the principles text passed explicitly
(the Python code reads it from the principles file); `.error` models the
`AttributeError` raised when a truthy non-dict sits where `notes` is expected
(the `notes.get` calls are unconditional), or where `principles_alignment` is
expected and at least one principle name parses (the comprehension of line
128 calls `pa.get` once per parsed name, so it never touches a bad receiver
when zero names parse). -/
def coerceSchema (raw : PyVal) (answers : List (String × String))
    (principlesText : String) : Except String Structured := do
  let rawD ← asDictE raw
  let notesD ← orEmptyDictE (alookup rawD "notes")
  let ra := pickRA answers
  let rflag := deriveReadinessFlag (pick answers ["readiness"])
  let suit := suitabilityOf rawD answers
  let notes : NotesRec := {
    background := noteFor notesD "background" ra.background
    why_lunartech := noteFor notesD "why_lunartech" ra.why_lunartech
    experience := noteFor notesD "experience" ra.experience
    future_goals := noteFor notesD "future_goals" ra.future_goals
    readiness := noteFor notesD "readiness" ra.readiness }
  let names := parsePrinciples principlesText
  let paV := pyOrEmpty (alookup rawD "principles_alignment")
  let pa ← names.foldlM
    (fun d name => (pyGetD paV name).map (fun v => aInsert d name v)) []
  pure {
    raw_answers := ra
    notes := notes
    evaluation := fieldOr rawD "evaluation"
      (.str "Automated notes generated; consider human review for final decision.")
    suitability := suit
    readiness_flag := fieldOr rawD "readiness_flag" (.str rflag)
    principles_alignment := pa }

/-- `_render_markdown`. -/
def renderMarkdown (s : Structured) : String :=
  let base := [
    "### Candidate Review (Condensed)",
    "- **Background:** " ++ pyStr s.notes.background,
    "- **Why LunarTech:** " ++ pyStr s.notes.why_lunartech,
    "- **Experience:** " ++ pyStr s.notes.experience,
    "- **Goals:** " ++ pyStr s.notes.future_goals,
    "- **Readiness:** " ++ pyStr s.notes.readiness ++ "  (_flag_: " ++
      pyStr s.readiness_flag ++ ")",
    "",
    "**Evaluation:** " ++ pyStr s.evaluation,
    "**Suitability:** " ++ s.suitability.toUpper,
    "",
    "_Full raw answers are stored in the session JSON under `summary.raw_answers`._"]
  let lines :=
    if s.principles_alignment.isEmpty then base
    else
      base ++ ["\n### Principles Alignment"] ++
        s.principles_alignment.map (fun kv =>
          "- **" ++ kv.1 ++ ":** " ++ (if truthy kv.2 then pyStr kv.2 else "—"))
  String.intercalate "\n" lines

/-- The template-mode evaluation literal of `_template_summary` (line 164). -/
def templateEvalLiteral : String :=
  "Template summary: Candidate provided responses. Enable LLM summaries for richer evaluation."

/-- `_template_summary`: coerce with an empty raw object, then overwrite the
evaluation with the template literal before rendering. -/
def templateSummaryE (answers : List (String × String)) (principlesText : String) :
    Except String (String × Structured) :=
  match coerceSchema (.dict []) answers principlesText with
  | .ok s =>
    let s2 := { s with evaluation := PyVal.str templateEvalLiteral }
    .ok (renderMarkdown s2, s2)
  | .error e => .error e

/-- JSON string escaping as in `json.dumps(..., ensure_ascii=False)`. -/
def jsonEscape (s : String) : String :=
  s.toList.foldl (fun acc c =>
    acc ++
      (if c = '"' then "\\\""
       else if c = '\\' then "\\\\"
       else if c = '\n' then "\\n"
       else if c = '\t' then "\\t"
       else if c = '\r' then "\\r"
       else if c.toNat < 32 then
         "\\u00" ++ String.mk [(Nat.digitChar (c.toNat / 16)),
           (Nat.digitChar (c.toNat % 16))]
       else String.singleton c)) ""

/-- `json.dumps` of a string-to-string mapping (`ensure_ascii=False`). -/
def jsonDumpsObj (l : List (String × String)) : String :=
  "\x7b" ++
    String.intercalate ", "
      (l.map (fun kv => "\"" ++ jsonEscape kv.1 ++ "\": \"" ++ jsonEscape kv.2 ++ "\"")) ++
    "\x7d"

/-- The `_SYSTEM` message. -/
def systemMsg : String :=
  "You are an admissions assistant for a data/AI bootcamp. Return STRICT JSON only. Do not include any prose outside JSON."

/-- `_USER_FMT.format(answers_json=aj, principles_text=pt)`: the user prompt
with the capped answers JSON and the principles text substituted (the `\x7b\x7b`
escapes of the format string render as single braces here). -/
def userPrompt (aj pt : String) : String :=
  "\nYou will evaluate a candidate's interview **only** using the answers below and the provided principles.\nDo **not** invent information. If there is **no clear supporting evidence** for a principle in the answers, leave that principle's value as an empty string.\n\nInterview answers (JSON-like; keys may vary):\n" ++
  aj ++
  "\n\nEvaluation principles (markdown list items):\n" ++
  pt ++
  "\n\nReturn a single JSON object with EXACT keys:\n\x7b\n  \"raw_answers\": \x7b\n    \"background\": \"\",\n    \"why_lunartech\": \"\",\n    \"experience\": \"\",\n    \"future_goals\": \"\",\n    \"readiness\": \"\"\n  \x7d,\n  \"notes\": \x7b\n    \"background\": \"1–2 sentence note based strictly on answers\",\n    \"why_lunartech\": \"1–2 sentence note\",\n    \"experience\": \"1–2 sentence note\",\n    \"future_goals\": \"1–2 sentence note\",\n    \"readiness\": \"1–2 sentence note\"\n  \x7d,\n  \"evaluation\": \"Overall suitability notes (2–4 sentences, grounded in answers).\",\n  \"suitability\": \"strong|average|weak\",\n  \"readiness_flag\": \"ready_now|date|needs_prep|unknown\",\n  \"principles_alignment\": \x7b\n    // keys must mirror each principle name exactly;\n    // each value must be SHORT evidence from the interview (1 sentence max) or \"\" if not supported.\n  \x7d\n\x7d\n\nRules:\n- Use **only** the provided answers for evidence; do not assume background knowledge.\n- If a principle is **not** covered by any answer, set its value to \"\" (empty string).\n- Keep notes concise and factual.\n- Output **STRICT JSON only** (no markdown fences or extra text).\n"

/-- `_llm_summary`, with the model invocation abstracted as a function from
the outbound prompt to a generation outcome (an `Except.error` models any
exception out of `LLMClient`), the principles text passed explicitly and the
configured answer cap as a parameter.  The cooldown sleep has no data
effect and is not modelled. -/
def llmSummaryE (genFn : String → Except String String)
    (answers : List (String × String)) (principlesText : String) (cap : Nat) :
    Except String (String × Structured) := do
  let answersCapped :=
    (answers.filter (fun kv => !(kv.2 == ""))).map
      (fun kv => (kv.1, capText cap kv.2))
  let prompt := systemMsg ++ "\n\n" ++
    userPrompt (jsonDumpsObj answersCapped)
      (if principlesText = "" then "(no principles provided)" else principlesText)
  let response ← genFn prompt
  let raw := safeJsonParse response
  let structured ← coerceSchema raw answers principlesText
  pure (renderMarkdown structured, structured)

/-- `summarize_session`: template mode when the LLM flag is off, otherwise
the LLM path with any failure recovered into the template summary. -/
def summarizeSession (useLLM : Bool) (genFn : String → Except String String)
    (answers : List (String × String)) (principlesText : String) (cap : Nat) :
    Except String (String × Structured) :=
  if !useLLM then templateSummaryE answers principlesText
  else
    match llmSummaryE genFn answers principlesText cap with
    | .ok r => .ok r
    | .error _ => templateSummaryE answers principlesText

/-! ### `app/llm.py`: cache and `LLMClient.generate` -/

/-- State of one cache file: readable content, or a file whose read raises
(`_cache_get` turns the latter into a miss). -/
inductive CacheEntry : Type where
  | good : String → CacheEntry
  | corrupt : CacheEntry

/-- The cache directory: one entry per content-addressed key.  The key is the
sha256 preimage `model ++ "\n" ++ prompt` itself (sha256 is injective on the
inputs that matter, so hashing is modelled by the identity on preimages). -/
abbrev Cache := List (String × CacheEntry)

/-- `_cache_path`'s content address for `(prompt, model)`. -/
def cacheKey (prompt model : String) : String := model ++ "\n" ++ prompt

/-- `_cache_get`: a present readable entry is returned; a read failure and a
missing file are both misses, never errors. -/
def cacheGet (c : Cache) (prompt model : String) : Option String :=
  match alookup c (cacheKey prompt model) with
  | some (.good t) => some t
  | some .corrupt => none
  | none => none

/-- `_cache_set`: write (or overwrite) the entry for `(prompt, model)`. -/
def cacheSet (c : Cache) (prompt model : String) (t : String) : Cache :=
  aInsert c (cacheKey prompt model) (.good t)

/-- The backend configuration after a successful `LLMClient.__init__`: the
OpenAI variant carries an optional fallback model, the Mistral variant has
none (the constructor rejects anything else, so the type is closed). -/
inductive BackendCfg : Type where
  | openai : String → Option String → BackendCfg
  | mistral : String → BackendCfg

/-- Does the configured backend have a fallback model? -/
def hasFallback : BackendCfg → Bool
  | .openai _ (some _) => true
  | _ => false

/-- The model identifier `generate` uses for cache addressing (line 92). -/
def cacheModelOf : BackendCfg → String
  | .openai p _ => p
  | .mistral m => m

/-- The network as an oracle: outcome of the `n`-th outbound call overall,
given the model identifier and prompt sent (an `Except.error` models a raised
exception from the HTTP/SDK layer). -/
abbrev Net := Nat → String → String → Except String String

/-- Result of one `generate` call: its return value or raised error, the
cache directory afterwards, and the total number of outbound network calls
made so far. -/
structure GenResult where
  result : Except String String
  cache : Cache
  calls : Nat

/-- `LLMClient.generate`: serve from cache when possible; otherwise call the
network (primary then, for the OpenAI variant only, the fallback model once),
and write the cache entry only after a successful generation — keyed by the
primary model identifier even when the fallback produced the text. -/
def generate (cfg : BackendCfg) (net : Net) (prompt : String) (c : Cache)
    (n : Nat) : GenResult :=
  match cacheGet c prompt (cacheModelOf cfg) with
  | some t => ⟨.ok t, c, n⟩
  | none =>
    match cfg with
    | .openai p fb =>
      match net n p prompt with
      | .ok t => ⟨.ok t, cacheSet c prompt p t, n + 1⟩
      | .error e =>
        match fb with
        | some f =>
          match net (n + 1) f prompt with
          | .ok t => ⟨.ok t, cacheSet c prompt p t, n + 2⟩
          | .error e2 => ⟨.error e2, c, n + 2⟩
        | none => ⟨.error e, c, n + 1⟩
    | .mistral m =>
      match net n m prompt with
      | .ok t => ⟨.ok t, cacheSet c prompt m t, n + 1⟩
      | .error e => ⟨.error e, c, n + 1⟩

/-! ### Definitions written from the specification's words

These are used only to compare the code's behaviour against the spec's
reference descriptions (claim C5); they are deliberately written from the
spec text, not from the source. -/

/-- Is the value a JSON object? -/
def isObjPy : PyVal → Bool
  | .dict _ => true
  | _ => false

/-- Modelled from the spec: brace-scanning stage of §4.2, step 2 — "for each
opening-brace index `i` (in order) and each closing-brace index `j ≥ i`
(scanned from the last closing brace backward toward `i` …), attempt to decode
the substring `text[i..j]` inclusive as a JSON object; accept the first
substring that decodes successfully", with `i` and `j` read as the brace
character positions the sentence names. -/
def specBraceScan (text : String) : Option PyVal :=
  let opens := charPositions '{' text
  let closes := charPositions '}' text
  opens.findSome? (fun oi =>
    (closes.reverse.filter (fun cj => decide (oi ≤ cj))).findSome? (fun cj =>
      match jloads (pySlice text oi (cj + 1)) with
      | some v => if isObjPy v then some v else none
      | none => none))

/-- Modelled from the spec: strategies 2–4 of §4.2. -/
def specAfterFence (text : String) : Option PyVal :=
  match specBraceScan text with
  | some v => some v
  | none => jloads (pyStrip text)

/-- Modelled from the spec: the four-strategy extraction algorithm of §4.2 in
its stated priority order — fenced block as a JSON object, then the
position-based brace scan, then the entire trimmed text, else absent. -/
def specExtract (text : String) : Option PyVal :=
  match (fencedCandidate text).bind jloads with
  | some v => if isObjPy v then some v else specAfterFence text
  | none => specAfterFence text

/-- The brace scan as the code actually performs it, but producing the decoded
value directly: pairs of list indices `(i, j)` with `j ≥ i`, widest `j`
first.  Used to state the amended version of claim C5. -/
def braceScanVal (text : String) : Option PyVal :=
  let opens := charPositions '{' text
  let closes := charPositions '}' text
  (List.range opens.length).findSome? (fun i =>
    ((revRange closes.length i).map (fun j => closes.getD j 0)).findSome?
      (fun cl => jloads (braceCandidate text (opens.getD i 0) cl)))

/-- The amended extraction algorithm (claim C5 corrected): decode the entire
raw text first; else the first fenced block's contents as any JSON value;
else the index-paired brace scan; else the entire stripped text; else absent. -/
def amendedExtract (text : String) : Option PyVal :=
  match jloads text with
  | some v => some v
  | none =>
    match (fencedCandidate text).bind jloads with
    | some v => some v
    | none =>
      match braceScanVal text with
      | some v => some v
      | none => jloads (pyStrip text)

/-- The four readiness-flag literals of the schema. -/
def fourFlags : List String := ["ready_now", "date", "needs_prep", "unknown"]

/-- Is an `Except` value a success? -/
def exOk {ε α : Type} : Except ε α → Bool
  | .ok _ => true
  | .error _ => false

/-- First-occurrence deduplication with an accumulator of already-seen keys. -/
def dedupSeen (seen : List String) : List String → List String
  | [] => []
  | n :: ns =>
    if n ∈ seen then dedupSeen seen ns else n :: dedupSeen (n :: seen) ns

/-- First-occurrence deduplication of a key list (the key sequence a Python
dict comprehension actually produces). -/
def dedupFirst (ns : List String) : List String := dedupSeen [] ns

/-- A generation oracle that always fails (used to witness the recovery
boundary). -/
def genBoom : String → Except String String := fun _ => .error "boom"

/-- A network where the first outbound call fails and every later one returns
the fixed text `"T"` (used for the cache counterexample). -/
def netPrimaryFails : Net := fun n _ _ =>
  if n = 0 then .error "rate limited" else .ok "T"

/-- A network that always succeeds with the fixed text `"T"`. -/
def netAlwaysOk : Net := fun _ _ _ => .ok "T"

/-! ## Helper lemmas -/

theorem alookup_aInsert_self {α : Type} (d : List (String × α)) (k : String)
    (v : α) : alookup (aInsert d k v) k = some v := by
  induction d with
  | nil => simp [aInsert, alookup]
  | cons hd tl ih =>
    obtain ⟨k', v'⟩ := hd
    by_cases h : k' = k
    · simp [aInsert, h, alookup]
    · simp [aInsert, h, alookup, ih]

theorem alookup_aInsert_ne {α : Type} (d : List (String × α)) (k k' : String)
    (v : α) (h : k' ≠ k) : alookup (aInsert d k v) k' = alookup d k' := by
  have hne : k ≠ k' := fun hh => h hh.symm
  induction d with
  | nil => simp [aInsert, alookup, hne]
  | cons hd tl ih =>
    obtain ⟨k0, v0⟩ := hd
    by_cases h0 : k0 = k
    · subst h0
      simp [aInsert, alookup, hne]
    · simp only [aInsert, h0, if_false, alookup]
      by_cases h1 : k0 = k'
      · simp [h1]
      · simp [h1, ih]

theorem aInsert_keys {α : Type} (d : List (String × α)) (k : String) (v : α) :
    (aInsert d k v).map Prod.fst =
      if k ∈ d.map Prod.fst then d.map Prod.fst else d.map Prod.fst ++ [k] := by
  induction d with
  | nil => simp [aInsert]
  | cons hd tl ih =>
    obtain ⟨k0, v0⟩ := hd
    by_cases h0 : k0 = k
    · subst h0
      simp [aInsert]
    · simp only [aInsert, h0, if_false, List.map_cons, ih]
      by_cases hm : k ∈ tl.map Prod.fst
      · simp [hm, Ne.symm h0]
      · simp [hm, Ne.symm h0]

theorem cacheGet_cacheSet (c : Cache) (prompt model t : String) :
    cacheGet (cacheSet c prompt model t) prompt model = some t := by
  simp [cacheGet, cacheSet, alookup_aInsert_self]

theorem orEmptyDictE_ok (o : Option PyVal) (h : dictableO o) :
    orEmptyDictE o = .ok (effD o) := by
  match o with
  | none => rfl
  | some v =>
    simp only [orEmptyDictE, effD]
    rcases h with h | ⟨l, rfl⟩
    · simp [h]
    · by_cases ht : truthy (PyVal.dict l)
      · simp [ht, asDictE]
      · simp [ht]

/-- The record `_coerce_schema` returns whenever it does not raise. -/
def coercedRecord (l : List (String × PyVal)) (answers : List (String × String))
    (p : String) : Structured :=
  let notesD := effD (alookup l "notes")
  let paD := effD (alookup l "principles_alignment")
  let ra := pickRA answers
  { raw_answers := ra
    notes := {
      background := noteFor notesD "background" ra.background
      why_lunartech := noteFor notesD "why_lunartech" ra.why_lunartech
      experience := noteFor notesD "experience" ra.experience
      future_goals := noteFor notesD "future_goals" ra.future_goals
      readiness := noteFor notesD "readiness" ra.readiness }
    evaluation := fieldOr l "evaluation"
      (.str "Automated notes generated; consider human review for final decision.")
    suitability := suitabilityOf l answers
    readiness_flag := fieldOr l "readiness_flag"
      (.str (deriveReadinessFlag (pick answers ["readiness"])))
    principles_alignment := (parsePrinciples p).foldl
      (fun d name => aInsert d name ((alookup paD name).getD (.str ""))) [] }

theorem pyGetD_pyOrEmpty_ok (o : Option PyVal) (name : String)
    (h : dictableO o) :
    pyGetD (pyOrEmpty o) name =
      .ok ((alookup (effD o) name).getD (.str "")) := by
  match o with
  | none => rfl
  | some v =>
    simp only [pyOrEmpty, effD]
    rcases h with h | ⟨l, rfl⟩
    · simp [h, pyGetD]
    · by_cases ht : truthy (PyVal.dict l) <;> simp [ht, pyGetD]

theorem foldlM_aInsert_ok (pa : PyVal) (g : String → PyVal)
    (h : ∀ name, pyGetD pa name = .ok (g name)) (names : List String)
    (acc : List (String × PyVal)) :
    (names.foldlM
        (fun d name => (pyGetD pa name).map (fun v => aInsert d name v)) acc :
      Except String (List (String × PyVal))) =
      .ok (names.foldl (fun d name => aInsert d name (g name)) acc) := by
  induction names generalizing acc with
  | nil => rfl
  | cons n ns ih =>
    simp only [List.foldlM_cons, List.foldl_cons, h n, Except.map, bind,
      Except.bind]
    exact ih _

theorem coerceSchema_ok (l : List (String × PyVal))
    (answers : List (String × String)) (p : String)
    (hn : dictableO (alookup l "notes"))
    (hp : dictableO (alookup l "principles_alignment")) :
    coerceSchema (.dict l) answers p = .ok (coercedRecord l answers p) := by
  have h1 := orEmptyDictE_ok _ hn
  have h2 := foldlM_aInsert_ok (pyOrEmpty (alookup l "principles_alignment"))
    (fun name => (alookup (effD (alookup l "principles_alignment")) name).getD
      (.str ""))
    (fun name => pyGetD_pyOrEmpty_ok _ name hp) (parsePrinciples p) []
  simp only [coerceSchema, asDictE, bind, Except.bind, h1, h2, pure,
    Except.pure, coercedRecord]

theorem coerceSchema_ok_noPrinciples (l : List (String × PyVal))
    (answers : List (String × String)) (p : String)
    (hn : dictableO (alookup l "notes")) (hq : parsePrinciples p = []) :
    coerceSchema (.dict l) answers p = .ok (coercedRecord l answers p) := by
  have h1 := orEmptyDictE_ok _ hn
  simp only [coerceSchema, asDictE, bind, Except.bind, h1, hq,
    List.foldlM_nil, List.foldl_nil, pure, Except.pure, coercedRecord]

theorem deriveReadinessFlag_mem (r : String) :
    deriveReadinessFlag r ∈ fourFlags := by
  simp only [deriveReadinessFlag]
  split_ifs <;> simp [fourFlags]

/-! ## Claim C2 -/

/-- Claim C2, counterexample: `_coerce_schema` is not total over raw model
outputs with wrongly-typed values — a raw object whose `notes` value is the
(truthy, non-mapping) string `"oops"` raises `AttributeError` even though the
answers mapping is string-valued. -/
theorem coerce_schema_not_total_cex :
    coerceSchema (.dict [("notes", PyVal.str "oops")]) [] "" =
      .error "AttributeError" := rfl

/-- Claim C2, amended: coercion returns a complete record without raising for
every raw mapping whose `notes` value, when present, is a mapping or falsy,
and whose `principles_alignment` value, when present, is a mapping or falsy
— or, failing that, no principle name parses from the principles text, in
which case the comprehension never touches the bad receiver — with any other
field of any type, and every string-valued answers mapping.  Outside this
domain an `AttributeError` is raised: always for a truthy non-mapping
`notes`, and for a truthy non-mapping `principles_alignment` exactly when at
least one principle name parses. -/
theorem coerce_schema_total_on_dictable (l : List (String × PyVal))
    (answers : List (String × String)) (p : String)
    (hn : dictableO (alookup l "notes"))
    (hp : dictableO (alookup l "principles_alignment") ∨
      parsePrinciples p = []) :
    exOk (coerceSchema (.dict l) answers p) = true := by
  rcases hp with hp | hq
  · rw [coerceSchema_ok l answers p hn hp]; rfl
  · rw [coerceSchema_ok_noPrinciples l answers p hn hq]; rfl

/-- Witness for the amended claim C2 at a concrete raw object whose
`principles_alignment` is a truthy non-mapping while zero principle names
parse: coercion still succeeds, as in Python. -/
theorem coerce_schema_total_on_dictable_witness :
    exOk (coerceSchema
      (.dict [("principles_alignment", PyVal.str "oops"),
        ("evaluation", PyVal.str "fine")])
      [("readiness", "ready")] "") = true :=
  coerce_schema_total_on_dictable _ _ _ (by trivial) (Or.inr rfl)

/-! ## Claim C3 -/

/-- Claim C3, counterexample: the coerced `readiness_flag` is not always one
of the four literals — a truthy model-supplied value such as `"banana"` is
passed through verbatim. -/
theorem readiness_flag_passthrough_cex :
    (coerceSchema (.dict [("readiness_flag", PyVal.str "banana")]) [] "").map
        (fun s => s.readiness_flag) = .ok (PyVal.str "banana") ∧
      ¬ ("banana" ∈ fourFlags) := ⟨rfl, by decide⟩

/-- Claim C3, amended: a truthy model-supplied `readiness_flag` is used
verbatim (even outside the four literals); otherwise — absent or falsy — the
flag is derived from the readiness answer by the case-insensitive substring
rules, and that derived flag is always one of the four literals
`ready_now`, `date`, `needs_prep`, `unknown`. -/
theorem readiness_flag_amended (l : List (String × PyVal))
    (answers : List (String × String)) (p : String)
    (hn : dictableO (alookup l "notes"))
    (hp : dictableO (alookup l "principles_alignment")) :
    (∀ v, alookup l "readiness_flag" = some v → truthy v = true →
      (coerceSchema (.dict l) answers p).map (fun s => s.readiness_flag) =
        .ok v) ∧
    (∀ v, alookup l "readiness_flag" = some v → truthy v = false →
      (coerceSchema (.dict l) answers p).map (fun s => s.readiness_flag) =
        .ok (.str (deriveReadinessFlag (pick answers ["readiness"])))) ∧
    (alookup l "readiness_flag" = none →
      (coerceSchema (.dict l) answers p).map (fun s => s.readiness_flag) =
        .ok (.str (deriveReadinessFlag (pick answers ["readiness"])))) ∧
    deriveReadinessFlag (pick answers ["readiness"]) ∈ fourFlags := by
  rw [coerceSchema_ok l answers p hn hp]
  refine ⟨?_, ?_, ?_, deriveReadinessFlag_mem _⟩
  · intro v hv ht
    simp [coercedRecord, fieldOr, hv, ht, Except.map]
  · intro v hv ht
    simp [coercedRecord, fieldOr, hv, ht, Except.map]
  · intro hv
    simp [coercedRecord, fieldOr, hv, Except.map]

/-- Witness for the amended claim C3: a truthy model flag is passed through. -/
theorem readiness_flag_amended_witness :
    (coerceSchema (.dict [("readiness_flag", PyVal.str "needs_prep")]) [] "").map
        (fun s => s.readiness_flag) = .ok (PyVal.str "needs_prep") :=
  (readiness_flag_amended _ _ _ (by trivial) (by trivial)).1 _ rfl rfl

/-! ## Claim C4 -/

/-- Claim C4, counterexample: the template-mode evaluation literal produced by
the code is `"Template summary: Candidate provided responses. Enable LLM
summaries for richer evaluation."`, not the literal the claim states. -/
theorem template_eval_literal_cex :
    (templateSummaryE [("background", "hi")] "").map (fun r => r.2.evaluation) =
        .ok (PyVal.str templateEvalLiteral) ∧
      templateEvalLiteral ≠
        "Template summary: Candidate provided responses. Enable richer evaluation via the model backend." :=
  ⟨rfl, by decide⟩

/-- Claim C4, amended: in template mode the `evaluation` field of the returned
record equals exactly the fixed literal `"Template summary: Candidate provided
responses. Enable LLM summaries for richer evaluation."`, for every answers
mapping and principles text. -/
theorem template_eval_literal (answers : List (String × String)) (p : String) :
    (templateSummaryE answers p).map (fun r => r.2.evaluation) =
      .ok (PyVal.str
        "Template summary: Candidate provided responses. Enable LLM summaries for richer evaluation.") := by
  have h := coerceSchema_ok [] answers p (by trivial) (by trivial)
  simp only [templateSummaryE, h]
  rfl

/-! ## Claim C1 -/

/-- Claim C1: for every session whose answers values are strings, the
top-level `summarize_session` never propagates an exception — its result is
always a success — and whenever the model-invocation/extraction/coercion
pipeline (`_llm_summary`) fails for any reason, the returned value is exactly
the (always successful) template-mode summary. -/
theorem summarize_session_never_fails (useLLM : Bool)
    (genFn : String → Except String String) (answers : List (String × String))
    (principlesText : String) (cap : Nat) :
    exOk (summarizeSession useLLM genFn answers principlesText cap) = true ∧
    exOk (templateSummaryE answers principlesText) = true ∧
    (∀ e, llmSummaryE genFn answers principlesText cap = .error e →
      summarizeSession true genFn answers principlesText cap =
        templateSummaryE answers principlesText) := by
  have htmpl : exOk (templateSummaryE answers principlesText) = true := by
    have h := coerceSchema_ok [] answers principlesText (by trivial) (by trivial)
    simp [templateSummaryE, h, exOk]
  refine ⟨?_, htmpl, ?_⟩
  · cases useLLM with
    | false => simpa [summarizeSession] using htmpl
    | true =>
      cases h : llmSummaryE genFn answers principlesText cap with
      | ok r => simp [summarizeSession, h, exOk]
      | error e => simpa [summarizeSession, h] using htmpl
  · intro e he
    simp [summarizeSession, he]

/-- Witness for claim C1: with a failing generation oracle, the session is
still summarized, via the template path. -/
theorem summarize_session_never_fails_witness :
    summarizeSession true genBoom [("background", "hi")] "" 800 =
      templateSummaryE [("background", "hi")] "" :=
  (summarize_session_never_fails true genBoom [("background", "hi")] "" 800).2.2
    "boom" rfl

/-! ## Claim C9 -/

/-- Claim C9: the per-answer cap applied when building the outbound prompt
never alters the stored `raw_answers`: whenever the LLM path returns a record,
its `raw_answers` equal the picks over the original, uncapped answers
(ordered source keys, first non-empty match, else empty) — for every cap,
generation oracle and model output. -/
theorem raw_answers_uncapped (genFn : String → Except String String)
    (answers : List (String × String)) (p : String) (cap : Nat) :
    (llmSummaryE genFn answers p cap).map (fun r => r.2.raw_answers) =
      (llmSummaryE genFn answers p cap).map (fun _ => pickRA answers) := by
  simp only [llmSummaryE, bind, Except.bind]
  set prompt := systemMsg ++ "\n\n" ++
    userPrompt (jsonDumpsObj ((answers.filter (fun kv => !(kv.2 == ""))).map
      (fun kv => (kv.1, capText cap kv.2))))
      (if p = "" then "(no principles provided)" else p) with hprompt
  cases hg : genFn prompt with
  | error e => rfl
  | ok resp =>
    simp only
    cases hc : coerceSchema (safeJsonParse resp) answers p with
    | error e => rfl
    | ok s =>
      have hra : s.raw_answers = pickRA answers := by
        simp only [coerceSchema, bind, Except.bind] at hc
        cases h1 : asDictE (safeJsonParse resp) with
        | error e => simp [h1] at hc
        | ok rawD =>
          simp only [h1] at hc
          cases h2 : orEmptyDictE (alookup rawD "notes") with
          | error e => simp [h2] at hc
          | ok notesD =>
            simp only [h2] at hc
            cases h3 : ((parsePrinciples p).foldlM
                (fun d name =>
                  (pyGetD (pyOrEmpty (alookup rawD "principles_alignment"))
                    name).map (fun v => aInsert d name v))
                ([] : List (String × PyVal)) :
                Except String (List (String × PyVal))) with
            | error e => simp [h3] at hc
            | ok paD =>
              simp only [h3, pure, Except.pure, Except.ok.injEq] at hc
              rw [← hc]
      simp [pure, Except.pure, Except.map, hra]

/-! ## Claim C7 -/

theorem foldl_aInsert_alookup (g : String → PyVal) (names : List String)
    (acc : List (String × PyVal)) (x : String) :
    alookup (names.foldl (fun d n => aInsert d n (g n)) acc) x =
      if x ∈ names then some (g x) else alookup acc x := by
  induction names generalizing acc with
  | nil => simp
  | cons n ns ih =>
    simp only [List.foldl_cons, ih]
    by_cases hx : x ∈ ns
    · simp [hx]
    · by_cases hxn : x = n
      · subst hxn
        simp [hx, alookup_aInsert_self]
      · simp [hx, hxn, alookup_aInsert_ne _ _ _ _ hxn]

theorem dedupSeen_congr (s1 s2 : List String)
    (h : ∀ x, x ∈ s1 ↔ x ∈ s2) (l : List String) :
    dedupSeen s1 l = dedupSeen s2 l := by
  induction l generalizing s1 s2 with
  | nil => rfl
  | cons n ns ih =>
    simp only [dedupSeen]
    by_cases hn : n ∈ s1
    · simp [hn, (h n).mp hn, ih s1 s2 h]
    · have hn2 : n ∉ s2 := fun hh => hn ((h n).mpr hh)
      simp only [hn, hn2, if_neg, ite_false]
      rw [ih (n :: s1) (n :: s2) (by intro x; simp [h x])]

theorem foldl_aInsert_keys (g : String → PyVal) (names : List String)
    (acc : List (String × PyVal)) :
    (names.foldl (fun d n => aInsert d n (g n)) acc).map Prod.fst =
      acc.map Prod.fst ++ dedupSeen (acc.map Prod.fst) names := by
  induction names generalizing acc with
  | nil => simp [dedupSeen]
  | cons n ns ih =>
    simp only [List.foldl_cons, ih, aInsert_keys]
    by_cases hn : n ∈ acc.map Prod.fst
    · simp [hn, dedupSeen]
    · simp only [hn, if_false, dedupSeen, ite_false, List.append_assoc,
        List.cons_append, List.nil_append]
      rw [dedupSeen_congr (acc.map Prod.fst ++ [n]) (n :: acc.map Prod.fst)
        (by intro x; simp [or_comm]) ns]

/-- Claim C7, counterexample: principle names are parsed without
deduplication, but the dict comprehension that builds `principles_alignment`
collapses duplicates — for the principles text `"- A\n- A"` the parsed names
are `["A", "A"]` while the coerced record carries the single key `["A"]`. -/
theorem principles_dedup_cex :
    parsePrinciples "- A\n- A" = ["A", "A"] ∧
    (coerceSchema (.dict []) [] "- A\n- A").map
        (fun s => s.principles_alignment.map Prod.fst) = .ok ["A"] ∧
    ["A"] ≠ ["A", "A"] := ⟨rfl, rfl, by decide⟩

/-- Claim C7, amended: the keys of `principles_alignment` are the parsed
principle names deduplicated to their first occurrence (in parse order), and
each key maps to the model-supplied evidence for that exact name when the
model object has it, else the empty string; principles not mentioned by the
model still appear, with empty evidence. -/
theorem principles_alignment_amended (l : List (String × PyVal))
    (answers : List (String × String)) (p : String)
    (hn : dictableO (alookup l "notes"))
    (hp : dictableO (alookup l "principles_alignment")) :
    (coerceSchema (.dict l) answers p).map
        (fun s => s.principles_alignment.map Prod.fst) =
      .ok (dedupFirst (parsePrinciples p)) ∧
    (∀ nm, (coerceSchema (.dict l) answers p).map
        (fun s => alookup s.principles_alignment nm) =
      .ok (if nm ∈ parsePrinciples p then
        some ((alookup (effD (alookup l "principles_alignment")) nm).getD
          (PyVal.str ""))
      else none)) := by
  rw [coerceSchema_ok l answers p hn hp]
  constructor
  · simp only [Except.map, coercedRecord]
    rw [foldl_aInsert_keys]
    simp [dedupFirst]
  · intro nm
    simp only [Except.map, coercedRecord]
    rw [foldl_aInsert_alookup]
    by_cases hm : nm ∈ parsePrinciples p <;> simp [hm, alookup]

/-- Witness for the amended claim C7 at a concrete principles text. -/
theorem principles_alignment_amended_witness :
    (coerceSchema (.dict []) [] "- Curiosity\n- Grit\n- Grit").map
        (fun s => s.principles_alignment.map Prod.fst) =
      .ok (dedupFirst (parsePrinciples "- Curiosity\n- Grit\n- Grit")) :=
  (principles_alignment_amended [] [] "- Curiosity\n- Grit\n- Grit"
    (by trivial) (by trivial)).1

/-! ## Claim C8 -/

theorem length_dropWhileLe (p : Char → Bool) (l : List Char) :
    (l.dropWhile p).length ≤ l.length := by
  induction l with
  | nil => simp
  | cons c cs ih =>
    simp only [List.dropWhile]
    by_cases h : p c
    · simp only [h]
      exact Nat.le_succ_of_le ih
    · simp [h]

theorem pyRstrip_length_le (s : String) : (pyRstrip s).length ≤ s.length := by
  show ((s.toList.reverse.dropWhile isPySpace).reverse).length ≤ s.toList.length
  rw [List.length_reverse]
  calc (s.toList.reverse.dropWhile isPySpace).length
      ≤ s.toList.reverse.length := length_dropWhileLe _ _
    _ = s.toList.length := List.length_reverse _

theorem shorten_length_le (x : String) : (shorten x).length ≤ 221 := by
  unfold shorten
  by_cases h0 : x = ""
  · simp [h0]
  · simp only [h0, if_false, ite_false]
    by_cases h1 : (pyStrip x).length ≤ 220
    · simp only [h1, if_true, ite_true]
      omega
    · simp only [h1, if_false, ite_false]
      rw [String.length_append]
      have h2 : (pyRstrip (String.mk ((pyStrip x).toList.take 220))).length ≤ 220 := by
        calc (pyRstrip (String.mk ((pyStrip x).toList.take 220))).length
            ≤ (String.mk ((pyStrip x).toList.take 220)).length :=
              pyRstrip_length_le _
          _ = ((pyStrip x).toList.take 220).length := rfl
          _ ≤ 220 := by
              rw [List.length_take]
              exact Nat.min_le_left _ _
      have h3 : ("…" : String).length = 1 := rfl
      omega

/-- Claim C8, counterexample: a derived note can be 221 characters long (220
truncated characters plus the one-character ellipsis marker), exceeding the
claimed 220-character bound. -/
theorem notes_length_cex :
    (coerceSchema (.dict [])
        [("background", String.mk (List.replicate 221 'a'))] "").map
      (fun s => pyLen s.notes.background) = .ok 221 ∧ ¬ (221 ≤ 220) :=
  ⟨rfl, by decide⟩

/-- Claim C8, amended: each note is the model-supplied value, kept verbatim
(of any length), when it is present and truthy; otherwise it is the raw
answer shortened by `_shorten` — stripped, and when longer than 220
characters truncated to 220, right-stripped and suffixed with an ellipsis —
so every derived note is at most 221 characters long. -/
theorem notes_amended (l : List (String × PyVal))
    (answers : List (String × String)) (p : String)
    (hn : dictableO (alookup l "notes"))
    (hp : dictableO (alookup l "principles_alignment")) :
    (coerceSchema (.dict l) answers p).map (fun s => s.notes) = .ok {
        background := noteFor (effD (alookup l "notes")) "background"
          (pick answers ["background", "full_name_background"])
        why_lunartech := noteFor (effD (alookup l "notes")) "why_lunartech"
          (pick answers ["why_lunartech", "motivation"])
        experience := noteFor (effD (alookup l "notes")) "experience"
          (pick answers ["experience"])
        future_goals := noteFor (effD (alookup l "notes")) "future_goals"
          (pick answers ["future_goals", "goals"])
        readiness := noteFor (effD (alookup l "notes")) "readiness"
          (pick answers ["readiness"]) } ∧
    (∀ d k f v, alookup d k = some v → truthy v = true → noteFor d k f = v) ∧
    (∀ d k f v, alookup d k = some v → truthy v = false →
      noteFor d k f = .str (shorten f)) ∧
    (∀ d k f, alookup d k = none → noteFor d k f = .str (shorten f)) ∧
    (∀ x, (shorten x).length ≤ 221) := by
  refine ⟨?_, ?_, ?_, ?_, shorten_length_le⟩
  · rw [coerceSchema_ok l answers p hn hp]
    simp [Except.map, coercedRecord, pickRA]
  · intro d k f v hv ht
    simp [noteFor, hv, ht]
  · intro d k f v hv ht
    simp [noteFor, hv, ht]
  · intro d k f hv
    simp [noteFor, hv]

/-- Witness for the amended claim C8: the derived-note length bound at a
concrete over-long answer. -/
theorem notes_amended_witness :
    (shorten (String.mk (List.replicate 500 'b'))).length ≤ 221 :=
  (notes_amended [] [] "" (by trivial) (by trivial)).2.2.2.2
    (String.mk (List.replicate 500 'b'))

/-! ## Claims C6 and C10 -/

theorem generate_cached_hit (cfg : BackendCfg) (net : Net) (prompt : String)
    (c : Cache) (n : Nat) (t : String)
    (h : cacheGet c prompt (cacheModelOf cfg) = some t) :
    generate cfg net prompt c n = ⟨.ok t, c, n⟩ := by
  unfold generate
  rw [h]

theorem generate_openai_primary_ok (p : String) (fb : Option String)
    (net : Net) (prompt : String) (c : Cache) (n : Nat) (t : String)
    (hc : cacheGet c prompt p = none) (h1 : net n p prompt = .ok t) :
    generate (.openai p fb) net prompt c n =
      ⟨.ok t, cacheSet c prompt p t, n + 1⟩ := by
  unfold generate
  simp only [cacheModelOf]
  rw [hc, h1]

theorem generate_openai_fb_ok (p f : String) (net : Net) (prompt : String)
    (c : Cache) (n : Nat) (e t : String)
    (hc : cacheGet c prompt p = none) (h1 : net n p prompt = .error e)
    (h2 : net (n + 1) f prompt = .ok t) :
    generate (.openai p (some f)) net prompt c n =
      ⟨.ok t, cacheSet c prompt p t, n + 2⟩ := by
  unfold generate
  simp only [cacheModelOf]
  rw [hc, h1, h2]

theorem generate_openai_fb_err (p f : String) (net : Net) (prompt : String)
    (c : Cache) (n : Nat) (e e2 : String)
    (hc : cacheGet c prompt p = none) (h1 : net n p prompt = .error e)
    (h2 : net (n + 1) f prompt = .error e2) :
    generate (.openai p (some f)) net prompt c n = ⟨.error e2, c, n + 2⟩ := by
  unfold generate
  simp only [cacheModelOf]
  rw [hc, h1, h2]

theorem generate_openai_nofb_err (p : String) (net : Net) (prompt : String)
    (c : Cache) (n : Nat) (e : String)
    (hc : cacheGet c prompt p = none) (h1 : net n p prompt = .error e) :
    generate (.openai p none) net prompt c n = ⟨.error e, c, n + 1⟩ := by
  unfold generate
  simp only [cacheModelOf]
  rw [hc, h1]

theorem generate_mistral_ok (m : String) (net : Net) (prompt : String)
    (c : Cache) (n : Nat) (t : String)
    (hc : cacheGet c prompt m = none) (h1 : net n m prompt = .ok t) :
    generate (.mistral m) net prompt c n =
      ⟨.ok t, cacheSet c prompt m t, n + 1⟩ := by
  unfold generate
  simp only [cacheModelOf]
  rw [hc, h1]

theorem generate_mistral_err (m : String) (net : Net) (prompt : String)
    (c : Cache) (n : Nat) (e : String)
    (hc : cacheGet c prompt m = none) (h1 : net n m prompt = .error e) :
    generate (.mistral m) net prompt c n = ⟨.error e, c, n + 1⟩ := by
  unfold generate
  simp only [cacheModelOf]
  rw [hc, h1]

theorem generate_success_cached (cfg : BackendCfg) (net : Net)
    (prompt : String) (c : Cache) (n : Nat) (t : String)
    (h : (generate cfg net prompt c n).result = .ok t) :
    cacheGet (generate cfg net prompt c n).cache prompt (cacheModelOf cfg) =
      some t := by
  cases cfg with
  | openai p fb =>
    cases hc : cacheGet c prompt p with
    | some t0 =>
      rw [generate_cached_hit _ net _ _ n t0 hc] at h ⊢
      cases h
      exact hc
    | none =>
      cases h1 : net n p prompt with
      | ok t1 =>
        rw [generate_openai_primary_ok p fb net prompt c n t1 hc h1] at h ⊢
        cases h
        exact cacheGet_cacheSet ..
      | error e1 =>
        cases fb with
        | some f =>
          cases h2 : net (n + 1) f prompt with
          | ok t2 =>
            rw [generate_openai_fb_ok p f net prompt c n e1 t2 hc h1 h2] at h ⊢
            cases h
            exact cacheGet_cacheSet ..
          | error e2 =>
            rw [generate_openai_fb_err p f net prompt c n e1 e2 hc h1 h2] at h
            cases h
        | none =>
          rw [generate_openai_nofb_err p net prompt c n e1 hc h1] at h
          cases h
  | mistral m =>
    cases hc : cacheGet c prompt m with
    | some t0 =>
      rw [generate_cached_hit _ net _ _ n t0 hc] at h ⊢
      cases h
      exact hc
    | none =>
      cases h1 : net n m prompt with
      | ok t1 =>
        rw [generate_mistral_ok m net prompt c n t1 hc h1] at h ⊢
        cases h
        exact cacheGet_cacheSet ..
      | error e1 =>
        rw [generate_mistral_err m net prompt c n e1 hc h1] at h
        cases h

/-- Claim C6, counterexample: on the backend with a fallback model, the first
of two consecutive `generate` calls with identical inputs makes two outbound
network calls (failing primary plus succeeding fallback), so the pair is not
covered by an "at most one outbound network call" budget even though both
calls return the same text and the second is served from the cache. -/
theorem generate_two_calls_cex :
    (generate (.openai "gpt" (some "mini")) netPrimaryFails "p" [] 0).result =
        .ok "T" ∧
    (generate (.openai "gpt" (some "mini")) netPrimaryFails "p"
        (generate (.openai "gpt" (some "mini")) netPrimaryFails "p" [] 0).cache
        (generate (.openai "gpt" (some "mini")) netPrimaryFails "p" [] 0).calls).result =
        .ok "T" ∧
    (generate (.openai "gpt" (some "mini")) netPrimaryFails "p"
        (generate (.openai "gpt" (some "mini")) netPrimaryFails "p" [] 0).cache
        (generate (.openai "gpt" (some "mini")) netPrimaryFails "p" [] 0).calls).calls =
        2 ∧
    ¬ ((2 : Nat) ≤ 1) :=
  ⟨rfl, rfl, rfl, by decide⟩

/-- Claim C6, amended: when the first of two consecutive `generate` calls
with identical inputs succeeds, the second returns the identical text and
makes no outbound network call (it is served from the cache); a single call
makes at most two outbound network calls, and at most one on a configuration
without a fallback model; the cache is written only after a successful
generation (a failing call leaves it unchanged); and a cache read failure is
treated as a cache miss, never an error. -/
theorem generate_cache_amended (cfg : BackendCfg) (net : Net) (prompt : String)
    (c : Cache) (n : Nat) :
    (∀ t, (generate cfg net prompt c n).result = .ok t →
      (generate cfg net prompt (generate cfg net prompt c n).cache
          (generate cfg net prompt c n).calls).result = .ok t ∧
      (generate cfg net prompt (generate cfg net prompt c n).cache
          (generate cfg net prompt c n).calls).calls =
        (generate cfg net prompt c n).calls) ∧
    (∀ e, (generate cfg net prompt c n).result = .error e →
      (generate cfg net prompt c n).cache = c) ∧
    (generate cfg net prompt c n).calls ≤ n + 2 ∧
    (hasFallback cfg = false →
      (generate cfg net prompt c n).calls ≤ n + 1) ∧
    (∀ p' m', alookup c (cacheKey p' m') = some CacheEntry.corrupt →
      cacheGet c p' m' = none) := by
  have main : ∀ t, (generate cfg net prompt c n).result = .ok t →
      (generate cfg net prompt (generate cfg net prompt c n).cache
          (generate cfg net prompt c n).calls).result = .ok t ∧
      (generate cfg net prompt (generate cfg net prompt c n).cache
          (generate cfg net prompt c n).calls).calls =
        (generate cfg net prompt c n).calls := by
    intro t h
    have hcached := generate_success_cached cfg net prompt c n t h
    rw [generate_cached_hit cfg net prompt _ _ t hcached]
    exact ⟨rfl, rfl⟩
  have unchanged : ∀ e, (generate cfg net prompt c n).result = .error e →
      (generate cfg net prompt c n).cache = c := by
    intro e h
    cases cfg with
    | openai p fb =>
      cases hc : cacheGet c prompt p with
      | some t0 => rw [generate_cached_hit _ net _ _ n t0 hc] at h; cases h
      | none =>
        cases h1 : net n p prompt with
        | ok t1 =>
          rw [generate_openai_primary_ok p fb net prompt c n t1 hc h1] at h
          cases h
        | error e1 =>
          cases fb with
          | some f =>
            cases h2 : net (n + 1) f prompt with
            | ok t2 =>
              rw [generate_openai_fb_ok p f net prompt c n e1 t2 hc h1 h2] at h
              cases h
            | error e2 =>
              rw [generate_openai_fb_err p f net prompt c n e1 e2 hc h1 h2]
          | none =>
            rw [generate_openai_nofb_err p net prompt c n e1 hc h1]
    | mistral m =>
      cases hc : cacheGet c prompt m with
      | some t0 => rw [generate_cached_hit _ net _ _ n t0 hc] at h; cases h
      | none =>
        cases h1 : net n m prompt with
        | ok t1 =>
          rw [generate_mistral_ok m net prompt c n t1 hc h1] at h
          cases h
        | error e1 => rw [generate_mistral_err m net prompt c n e1 hc h1]
  have bound : (generate cfg net prompt c n).calls ≤ n + 2 ∧
      (hasFallback cfg = false →
        (generate cfg net prompt c n).calls ≤ n + 1) := by
    cases cfg with
    | openai p fb =>
      cases hc : cacheGet c prompt p with
      | some t0 =>
        rw [generate_cached_hit _ net _ _ n t0 hc]
        exact ⟨by dsimp only; omega, fun _ => by dsimp only; omega⟩
      | none =>
        cases h1 : net n p prompt with
        | ok t1 =>
          rw [generate_openai_primary_ok p fb net prompt c n t1 hc h1]
          exact ⟨by dsimp only; omega, fun _ => by dsimp only; omega⟩
        | error e1 =>
          cases fb with
          | some f =>
            cases h2 : net (n + 1) f prompt with
            | ok t2 =>
              rw [generate_openai_fb_ok p f net prompt c n e1 t2 hc h1 h2]
              exact ⟨by dsimp only; omega, fun hfb => by simp [hasFallback] at hfb⟩
            | error e2 =>
              rw [generate_openai_fb_err p f net prompt c n e1 e2 hc h1 h2]
              exact ⟨by dsimp only; omega, fun hfb => by simp [hasFallback] at hfb⟩
          | none =>
            rw [generate_openai_nofb_err p net prompt c n e1 hc h1]
            exact ⟨by dsimp only; omega, fun _ => by dsimp only; omega⟩
    | mistral m =>
      cases hc : cacheGet c prompt m with
      | some t0 =>
        rw [generate_cached_hit _ net _ _ n t0 hc]
        exact ⟨by dsimp only; omega, fun _ => by dsimp only; omega⟩
      | none =>
        cases h1 : net n m prompt with
        | ok t1 =>
          rw [generate_mistral_ok m net prompt c n t1 hc h1]
          exact ⟨by dsimp only; omega, fun _ => by dsimp only; omega⟩
        | error e1 =>
          rw [generate_mistral_err m net prompt c n e1 hc h1]
          exact ⟨by dsimp only; omega, fun _ => by dsimp only; omega⟩
  exact ⟨main, unchanged, bound.1, bound.2, fun p' m' h => by simp [cacheGet, h]⟩

/-- Witness for the amended claim C6: a concrete second call served from the
cache with the identical text. -/
theorem generate_cache_amended_witness :
    (generate (.mistral "m") netAlwaysOk "p"
        (generate (.mistral "m") netAlwaysOk "p" [] 0).cache
        (generate (.mistral "m") netAlwaysOk "p" [] 0).calls).result =
      .ok "T" :=
  ((generate_cache_amended (.mistral "m") netAlwaysOk "p" [] 0).1 "T" rfl).1

/-- Claim C10: when the primary model call fails and the fallback call
succeeds, `generate` returns the fallback text and caches it under the key of
the primary model identifier and the prompt, so every later call with that
prompt (under any network behaviour) returns the fallback-produced text as if
the primary model had produced it. -/
theorem fallback_cached_under_primary (p fbm prompt : String) (net : Net)
    (c : Cache) (n : Nat) (t e : String)
    (hmiss : cacheGet c prompt p = none)
    (hp : net n p prompt = .error e)
    (hf : net (n + 1) fbm prompt = .ok t) :
    (generate (.openai p (some fbm)) net prompt c n).result = .ok t ∧
    cacheGet (generate (.openai p (some fbm)) net prompt c n).cache prompt p =
      some t ∧
    (∀ net2 n2, (generate (.openai p (some fbm)) net2 prompt
        (generate (.openai p (some fbm)) net prompt c n).cache n2).result =
      .ok t) := by
  have hgen := generate_openai_fb_ok p fbm net prompt c n e t hmiss hp hf
  refine ⟨by rw [hgen], by rw [hgen]; exact cacheGet_cacheSet .., ?_⟩
  intro net2 n2
  rw [hgen]
  have hhit : cacheGet (cacheSet c prompt p t) prompt
      (cacheModelOf (.openai p (some fbm))) = some t := cacheGet_cacheSet ..
  rw [generate_cached_hit _ net2 _ _ n2 t hhit]

/-- Witness for claim C10 at a concrete failing-primary network. -/
theorem fallback_cached_under_primary_witness :
    (generate (.openai "gpt" (some "mini")) netPrimaryFails "q" [] 0).result =
      .ok "T" :=
  (fallback_cached_under_primary "gpt" "mini" "q" netPrimaryFails [] 0 "T"
    "rate limited" rfl rfl rfl).1

/-! ## Claim C5 -/

theorem scanInner_bind (text : String) (op : Nat) (cls : List Nat) :
    (scanInnerCode text op cls).bind jloads =
      cls.findSome? (fun cl => jloads (braceCandidate text op cl)) := by
  induction cls with
  | nil => rfl
  | cons cl rest ih =>
    simp only [scanInnerCode, List.findSome?_cons]
    cases hj : jloads (braceCandidate text op cl) with
    | some w => simp [hj]
    | none => simp [hj, ih]

theorem scanInner_isSome (text : String) (op : Nat) (cls : List Nat)
    (s : String) (h : scanInnerCode text op cls = some s) :
    (jloads s).isSome = true := by
  induction cls with
  | nil => cases h
  | cons cl rest ih =>
    simp only [scanInnerCode] at h
    by_cases hj : (jloads (braceCandidate text op cl)).isSome
    · simp only [hj, if_true, ite_true, Option.some.injEq] at h
      rw [← h]
      exact hj
    · simp only [hj, if_false, ite_false] at h
      exact ih h

theorem scanOuter_bind (text : String) (opens closes : List Nat)
    (is : List Nat) :
    (scanOuterCode text opens closes is).bind jloads =
      is.findSome? (fun i =>
        ((revRange closes.length i).map (fun j => closes.getD j 0)).findSome?
          (fun cl => jloads (braceCandidate text (opens.getD i 0) cl))) := by
  induction is with
  | nil => rfl
  | cons i rest ih =>
    simp only [scanOuterCode, List.findSome?_cons]
    cases hs : scanInnerCode text (opens.getD i 0)
        ((revRange closes.length i).map (fun j => closes.getD j 0)) with
    | some s =>
      have h1 := scanInner_bind text (opens.getD i 0)
        ((revRange closes.length i).map (fun j => closes.getD j 0))
      rw [hs] at h1
      obtain ⟨w, hw⟩ := Option.isSome_iff_exists.mp
        (scanInner_isSome text _ _ s hs)
      rw [← h1]
      simp [hw]
    | none =>
      have h1 := scanInner_bind text (opens.getD i 0)
        ((revRange closes.length i).map (fun j => closes.getD j 0))
      rw [hs] at h1
      rw [← h1]
      simp [ih]

theorem scanOuter_isSome (text : String) (opens closes : List Nat)
    (is : List Nat) (s : String)
    (h : scanOuterCode text opens closes is = some s) :
    (jloads s).isSome = true := by
  induction is with
  | nil => cases h
  | cons i rest ih =>
    simp only [scanOuterCode] at h
    cases hs : scanInnerCode text (opens.getD i 0)
        ((revRange closes.length i).map (fun j => closes.getD j 0)) with
    | some s0 =>
      rw [hs] at h
      cases h
      exact scanInner_isSome text _ _ _ hs
    | none =>
      rw [hs] at h
      exact ih h

theorem braceScan_bind (text : String) :
    (braceScanCode text).bind jloads = braceScanVal text := by
  unfold braceScanCode braceScanVal
  exact scanOuter_bind text _ _ _

theorem braceScanCode_isSome (text : String) (s : String)
    (h : braceScanCode text = some s) : (jloads s).isSome = true := by
  unfold braceScanCode at h
  exact scanOuter_isSome text _ _ _ s h

theorem jloads_empty : jloads "" = none := rfl

theorem after_fence_val (text : String) :
    (match braceOrWhole text with
     | some block =>
       if block = "" then PyVal.dict [] else (jloads block).getD (.dict [])
     | none => PyVal.dict []) =
    (match braceScanVal text with
     | some v => some v
     | none => jloads (pyStrip text)).getD (PyVal.dict []) := by
  unfold braceOrWhole
  cases hb : braceScanCode text with
  | some s =>
    obtain ⟨w, hw⟩ := Option.isSome_iff_exists.mp (braceScanCode_isSome text s hb)
    have hval : braceScanVal text = some w := by
      rw [← braceScan_bind, hb]
      simp [hw]
    have hsne : ¬ (s = "") := by
      intro he
      rw [he, jloads_empty] at hw
      cases hw
    simp [hval, hsne, hw]
  | none =>
    have hval : braceScanVal text = none := by
      rw [← braceScan_bind, hb]
      rfl
    simp only [hval]
    cases ht : jloads (pyStrip text) with
    | some w =>
      have hne : ¬ (pyStrip text = "") := by
        intro he
        rw [he, jloads_empty] at ht
        cases ht
      simp [ht, hne]
    | none => simp [ht]

/-- Claim C5, counterexample: on the input `"\x7b \x7b\"a\":1\x7d"` the
spec's reference algorithm (position-paired brace scan) extracts the object
`\x7b"a": 1\x7d`, while the code's extraction — which pairs the `i`-th opening
brace with the `j`-th closing brace by *list index* (`j ≥ i`), skipping
closing braces with smaller index — finds nothing and yields the absent
marker. -/
theorem extraction_spec_algorithm_cex :
    specExtract "\x7b \x7b\"a\":1\x7d" = some (.dict [("a", .int 1)]) ∧
    extractJsonBlock "\x7b \x7b\"a\":1\x7d" = none ∧
    safeJsonParse "\x7b \x7b\"a\":1\x7d" = .dict [] := ⟨rfl, rfl, rfl⟩

/-- Claim C5, amended: extraction (`_safe_json_parse`) follows, with first
success winning: (0) decode the entire raw text as any JSON value; (1) else a
fenced code block's contents as any JSON value; (2) else, for the `i`-th
opening brace (in order) and the `j`-th closing brace with list index
`j ≥ i`, scanned from the last closing brace backward, decode the substring
between those two brace positions; (3) else decode the entire stripped text;
(4) else return the absent marker (the empty object), never an error. -/
theorem extraction_algorithm_amended (text : String) :
    safeJsonParse text = (amendedExtract text).getD (PyVal.dict []) := by
  by_cases h0 : text = ""
  · subst h0
    rfl
  · unfold safeJsonParse amendedExtract
    simp only [h0, if_false, ite_false]
    cases hj : jloads text with
    | some v => simp [hj]
    | none =>
      simp only [hj]
      unfold extractJsonBlock
      simp only [h0, if_false, ite_false]
      cases hf : fencedCandidate text with
      | some cand =>
        cases hjc : jloads cand with
        | some w =>
          have hcne : ¬ (cand = "") := by
            intro he
            rw [he, jloads_empty] at hjc
            cases hjc
          simp [hjc, hcne, Option.bind]
        | none =>
          simp only [hjc, Option.isSome_none, Bool.false_eq_true, if_false,
            ite_false, Option.some_bind, Option.bind]
          exact after_fence_val text
      | none =>
        simp only [Option.bind]
        exact after_fence_val text
